import Mathlib

/-!
Formal model of the redis-exactly-once-processing repository.

The shared Redis store is embedded shallowly: the `waiting_conversations`
sorted set and the `notification_states` hash become association lists
(one entry per key, maintained by the mutating operations), the leader key
becomes an `Option String`, and the timeout-event stream becomes the list
of events a detector pass appends.  The Go functions
`TrackAgentMessage`, `ClearTimeout`, `CleanupExpiredConversations`
(pkg/phase1/timeout_manager.go), `processConversationTimeout` /
`processTimeoutDetection` and the scan loop (pkg/phase1/leader.go,
phase2 stream producer), `tryBecomeLeader` / `renewLeadership`
(pkg/phase1/leader.go), and `parseTimeoutEvent` / `processMessage`
(phase2 stream consumer) are translated function by function below.
-/

namespace RedisTimeout

/-- One Redis hash / sorted-set: an association list; the operations below
keep at most one entry per key. -/
structure Store where
  waiting : List (String × Int)
  notif : List (String × String)
deriving DecidableEq

/-- ZSCORE on the waiting sorted set. -/
def zscore (conv : String) (w : List (String × Int)) : Option Int :=
  (w.find? (fun p => p.1 == conv)).map (fun p => p.2)

/-- HGET on the notification-states hash. -/
def hget (conv : String) (h : List (String × String)) : Option String :=
  (h.find? (fun p => p.1 == conv)).map (fun p => p.2)

/-- ZADD (upsert member with score). -/
def zadd (conv : String) (score : Int) (w : List (String × Int)) : List (String × Int) :=
  (conv, score) :: w.filter (fun p => p.1 != conv)

/-- ZREM. -/
def zrem (conv : String) (w : List (String × Int)) : List (String × Int) :=
  w.filter (fun p => p.1 != conv)

/-- HSET. -/
def hset (conv : String) (v : String) (h : List (String × String)) : List (String × String) :=
  (conv, v) :: h.filter (fun p => p.1 != conv)

/-- HDEL. -/
def hdel (conv : String) (h : List (String × String)) : List (String × String) :=
  h.filter (fun p => p.1 != conv)

/-- `TrackAgentMessage` (timeout_manager.go): pipeline of
ZADD waiting_conversations ts conv; HDEL notification_states conv. -/
def trackAgentMessage (conv : String) (ts : Int) (st : Store) : Store :=
  { waiting := zadd conv ts st.waiting, notif := hdel conv st.notif }

/-- `ClearTimeout` (timeout_manager.go): pipeline of
ZREM waiting_conversations conv; HDEL notification_states conv. -/
def clearTimeout (conv : String) (st : Store) : Store :=
  { waiting := zrem conv st.waiting, notif := hdel conv st.notif }

/-- `CleanupExpiredConversations` (timeout_manager.go):
ZREMRANGEBYSCORE waiting_conversations 0 cutoff, with cutoff = now − maxAge;
both bounds are inclusive in Redis.  The removed count is the value of the
local variable `removed` (logged, not returned by the Go function). -/
def cleanupExpiredConversations (cutoff : Int) (st : Store) : Store × Int :=
  ({ st with waiting := st.waiting.filter (fun p => !(decide (0 ≤ p.2 ∧ p.2 ≤ cutoff))) },
   (st.waiting.filter (fun p => decide (0 ≤ p.2 ∧ p.2 ≤ cutoff))).length)

lemma find?_filter_ne {α : Type} (conv : String) (l : List (String × α)) :
    (l.filter (fun p => p.1 != conv)).find? (fun p => p.1 == conv) = none := by
  rw [List.find?_eq_none]
  intro p hp
  rcases List.mem_filter.mp hp with ⟨-, hne⟩
  simpa using bne_iff_ne.mp hne

lemma filter_ne_of_find?_none {α : Type} (conv : String) (l : List (String × α))
    (h : l.find? (fun p => p.1 == conv) = none) :
    l.filter (fun p => p.1 != conv) = l := by
  rw [List.filter_eq_self]
  intro p hp
  have := List.find?_eq_none.mp h p hp
  simpa [bne_iff_ne] using this

/-- Digits of a Go decimal literal: at least one character, all ASCII
digits, folded to the value. -/
def digitsToNat? (cs : List Char) : Option Nat :=
  match cs with
  | [] => none
  | _ =>
    cs.foldl
      (fun acc c => acc.bind (fun v => if c.isDigit then some (10 * v + (c.toNat - 48)) else none))
      (some 0)

/-- Go `strconv.Atoi` / `strconv.ParseInt(s, 10, 64)`: an optional sign
followed by at least one decimal digit; anything else is an error. -/
def goAtoi (s : String) : Option Int :=
  match s.data with
  | '+' :: cs => (digitsToNat? cs).map Int.ofNat
  | '-' :: cs => (digitsToNat? cs).map (fun v => -(Int.ofNat v))
  | cs => (digitsToNat? cs).map Int.ofNat

/-- The current-level computation of `processConversationTimeout`
(leader.go) and `processTimeoutDetection` (phase2 producer): a missing
hash entry reads as the empty string (redis.Nil), the empty string and any
string `strconv.Atoi` rejects leave the level at 0. -/
def currentLevelOf (v : Option String) : Int :=
  match v with
  | none => 0
  | some s =>
    if s = "" then 0
    else
      match goAtoi s with
      | some l => l
      | none => 0

/-- The level ladder of `processConversationTimeout` /
`processTimeoutDetection`: strict comparisons of the wait time against
3·N, 2·N, N, each guarded by the stored level. -/
def newLevelFor (waitTime timeoutInterval cur : Int) : Option Int :=
  if waitTime > timeoutInterval * 3 ∧ cur < 3 then some 3
  else if waitTime > timeoutInterval * 2 ∧ cur < 2 then some 2
  else if waitTime > timeoutInterval ∧ cur < 1 then some 1
  else none

/-- A timeout event as appended to the `timeout_events` stream. -/
structure TimeoutEvent where
  conversationID : String
  level : Int
  agentMessageTime : Int
  detectedAt : Int
  attempt : Int
deriving DecidableEq

/-- `processTimeoutDetection` (phase2 stream producer; identical ladder in
phase1 `processConversationTimeout`): read the stored level, compute the
newly due level, publish the event, and on publish success HSET the new
level.  `pubOk` is the publish-failure oracle: it tells, per conversation,
whether the XADD of the event succeeds.  The returned list holds the
events actually appended to the stream. -/
def processTimeoutDetection (n now : Int) (pubOk : String → Bool)
    (conv : String) (startTime : Int) (st : Store) : Store × List TimeoutEvent :=
  match newLevelFor (now - startTime) n (currentLevelOf (hget conv st.notif)) with
  | none => (st, [])
  | some l =>
    if pubOk conv then
      ({ st with notif := hset conv (toString l) st.notif },
       [⟨conv, l, startTime, now, 1⟩])
    else (st, [])

/-- The per-pass loop of `detectAndPublishTimeouts` / `checkTimeouts`:
process each conversation returned by the range scan in order, threading
the store and concatenating the published events. -/
def detectAndPublishTimeouts (n now : Int) (pubOk : String → Bool)
    (convs : List (String × Int)) (st : Store) : Store × List TimeoutEvent :=
  match convs with
  | [] => (st, [])
  | (c, s) :: rest =>
    let r1 := processTimeoutDetection n now pubOk c s st
    let r2 := detectAndPublishTimeouts n now pubOk rest r1.1
    (r2.1, r1.2 ++ r2.2)

/-- State of the leader election visible to one replica: the value of the
`timeout:leader` key (None when absent or expired), the local `isLeader`
hint, and the leader-change counter. -/
structure ElectState where
  leaderKey : Option String
  isLeader : Bool
  leaderChanges : Nat
deriving DecidableEq

/-- `renewLeadership` (leader.go): the CAS script
`if GET L == self then EXPIRE L ttl else 0`; a zero result flips the local
state to follower.  TTL extension itself has no effect on the modelled
state. -/
def renewLeadership (pod : String) (s : ElectState) : ElectState :=
  if s.leaderKey = some pod then s else { s with isLeader := false }

/-- Result of one election tick: the new state, and whether
`renewLeadership` was called during the tick. -/
structure TickResult where
  state : ElectState
  renewCalled : Bool
deriving DecidableEq

/-- `tryBecomeLeader` (leader.go): SET L = self NX with TTL.  On success
("OK"): increment the leader-change counter when not already leader, set
the hint, then renew.  On failure: only when the local hint says leader,
GET the key and drop the hint unless the value is the own pod id; no
renewal happens on this path. -/
def tryBecomeLeader (pod : String) (s : ElectState) : TickResult :=
  if s.leaderKey = none then
    let s1 : ElectState :=
      if s.isLeader then { s with leaderKey := some pod }
      else { s with leaderKey := some pod, isLeader := true,
                    leaderChanges := s.leaderChanges + 1 }
    ⟨renewLeadership pod s1, true⟩
  else
    if s.isLeader then
      if s.leaderKey = some pod then ⟨s, false⟩
      else ⟨{ s with isLeader := false }, false⟩
    else ⟨s, false⟩

/-- A value in a consumed stream entry's field map, as a Go
`interface\x7b\x7d`: the `.(string)` type assertion succeeds only on `str`. -/
inductive GoVal
  | str (s : String)
  | num (n : Int)
deriving DecidableEq

/-- A stream entry as delivered to the consumer (redis.XMessage). -/
structure XMessage where
  id : String
  values : List (String × GoVal)
deriving DecidableEq

/-- Field extraction with the Go `.(string)` type assertion: a missing key
and a non-string value both fail. -/
def getStr (m : XMessage) (k : String) : Option String :=
  match (m.values.find? (fun p => p.1 == k)).map (fun p => p.2) with
  | some (GoVal.str s) => some s
  | _ => none

/-- `parseTimeoutEvent` (phase2 stream consumer): the four required fields
in source order, then the optional `attempt` field, which defaults to 1
when missing or not a string but errors when present and unparseable. -/
def parseTimeoutEvent (m : XMessage) : Except String TimeoutEvent :=
  match getStr m "conversation_id" with
  | none => Except.error "missing or invalid conversation_id"
  | some convID =>
    match getStr m "level" with
    | none => Except.error "missing or invalid level"
    | some levelStr =>
      match goAtoi levelStr with
      | none => Except.error "invalid level format"
      | some level =>
        match getStr m "agent_message_time" with
        | none => Except.error "missing or invalid agent_message_time"
        | some agentStr =>
          match goAtoi agentStr with
          | none => Except.error "invalid agent_message_time format"
          | some agentTime =>
            match getStr m "detected_at" with
            | none => Except.error "missing or invalid detected_at"
            | some detStr =>
              match goAtoi detStr with
              | none => Except.error "invalid detected_at format"
              | some detectedAt =>
                match getStr m "attempt" with
                | none => Except.ok ⟨convID, level, agentTime, detectedAt, 1⟩
                | some attStr =>
                  match goAtoi attStr with
                  | none => Except.error "invalid attempt format"
                  | some att => Except.ok ⟨convID, level, agentTime, detectedAt, att⟩

/-- Observable outcome of `processMessage` for one entry: whether XACK was
issued, and which counters were incremented. -/
structure MsgOutcome where
  acked : Bool
  parseErrorInc : Bool
  successInc : Bool
deriving DecidableEq

/-- `processMessage` (phase2 stream consumer): parse failure ⇒ ack and
count a parse error (poison pill); sink failure ⇒ no ack; sink success ⇒
ack and count a success. `sink` is the injected notification capability. -/
def processMessage (sink : TimeoutEvent → Bool) (m : XMessage) : MsgOutcome :=
  match parseTimeoutEvent m with
  | Except.error _ => ⟨true, true, false⟩
  | Except.ok ev => if sink ev then ⟨true, false, true⟩ else ⟨false, false, false⟩

lemma newLevelFor_none_of_le (waitTime n : Int) (hn : 1 ≤ n) (hw : waitTime ≤ n) :
    newLevelFor waitTime n 0 = none := by
  unfold newLevelFor
  rw [if_neg (by omega), if_neg (by omega), if_neg (by omega)]

lemma newLevelFor_one (waitTime n : Int) (h1 : n < waitTime) (h2 : waitTime ≤ 2 * n) :
    newLevelFor waitTime n 0 = some 1 := by
  unfold newLevelFor
  rw [if_neg (by omega), if_neg (by omega), if_pos (by omega)]

lemma newLevelFor_two (waitTime n : Int) (h1 : 2 * n < waitTime) (h2 : waitTime ≤ 3 * n) :
    newLevelFor waitTime n 0 = some 2 := by
  unfold newLevelFor
  rw [if_neg (by omega), if_pos (by omega)]

lemma newLevelFor_three (waitTime n cur : Int) (h1 : 3 * n < waitTime) (hc : cur < 3) :
    newLevelFor waitTime n cur = some 3 := by
  unfold newLevelFor
  rw [if_pos (by omega)]

lemma currentLevelOf_hget_none (conv : String) (h : List (String × String))
    (hh : hget conv h = none) : currentLevelOf (hget conv h) = 0 := by
  rw [hh]; rfl

lemma processTimeoutDetection_eq_pub (n now : Int) (pubOk : String → Bool)
    (conv : String) (startTime : Int) (st : Store) (l : Int)
    (hp : pubOk conv = true)
    (hl : newLevelFor (now - startTime) n (currentLevelOf (hget conv st.notif)) = some l) :
    processTimeoutDetection n now pubOk conv startTime st =
      ({ st with notif := hset conv (toString l) st.notif },
       [⟨conv, l, startTime, now, 1⟩]) := by
  unfold processTimeoutDetection
  rw [hl]
  exact if_pos hp

lemma processTimeoutDetection_eq_nopub (n now : Int) (pubOk : String → Bool)
    (conv : String) (startTime : Int) (st : Store) (l : Int)
    (hp : pubOk conv = false)
    (hl : newLevelFor (now - startTime) n (currentLevelOf (hget conv st.notif)) = some l) :
    processTimeoutDetection n now pubOk conv startTime st = (st, []) := by
  unfold processTimeoutDetection
  rw [hl]
  exact if_neg (by simp [hp])

lemma processTimeoutDetection_eq_of_none (n now : Int) (pubOk : String → Bool)
    (conv : String) (startTime : Int) (st : Store)
    (hl : newLevelFor (now - startTime) n (currentLevelOf (hget conv st.notif)) = none) :
    processTimeoutDetection n now pubOk conv startTime st = (st, []) := by
  unfold processTimeoutDetection
  rw [hl]

/-- Claim C1: with stored level 0 the detector's due-level comparison is
strictly greater-than at every rung: wait = N produces no event and
wait = N + 1 ms produces a level-1 event; likewise the comparison against
2N for level 2 is strict (at wait = 2N the pass still publishes level 1,
at wait = 2N + 1 it publishes level 2), and against 3N for level 3 (at
wait = 3N it publishes level 2, at wait = 3N + 1 level 3). -/
theorem detector_strict_boundaries (n : Int) (hn : 1 ≤ n) (conv : String)
    (startTime : Int) (st : Store) (hcur : hget conv st.notif = none) :
    (processTimeoutDetection n (startTime + n) (fun _ => true) conv startTime st).2 = [] ∧
    (processTimeoutDetection n (startTime + n + 1) (fun _ => true) conv startTime st).2 =
      [⟨conv, 1, startTime, startTime + n + 1, 1⟩] ∧
    (processTimeoutDetection n (startTime + 2 * n) (fun _ => true) conv startTime st).2 =
      [⟨conv, 1, startTime, startTime + 2 * n, 1⟩] ∧
    (processTimeoutDetection n (startTime + 2 * n + 1) (fun _ => true) conv startTime st).2 =
      [⟨conv, 2, startTime, startTime + 2 * n + 1, 1⟩] ∧
    (processTimeoutDetection n (startTime + 3 * n) (fun _ => true) conv startTime st).2 =
      [⟨conv, 2, startTime, startTime + 3 * n, 1⟩] ∧
    (processTimeoutDetection n (startTime + 3 * n + 1) (fun _ => true) conv startTime st).2 =
      [⟨conv, 3, startTime, startTime + 3 * n + 1, 1⟩] := by
  have h0 : currentLevelOf (hget conv st.notif) = 0 := currentLevelOf_hget_none conv st.notif hcur
  refine ⟨?_, ?_, ?_, ?_, ?_, ?_⟩
  · rw [processTimeoutDetection_eq_of_none]
    rw [h0]
    exact newLevelFor_none_of_le _ _ hn (by omega)
  · rw [processTimeoutDetection_eq_pub (l := 1) _ _ _ _ _ _ rfl
      (by rw [h0]; exact newLevelFor_one _ _ (by omega) (by omega))]
  · rw [processTimeoutDetection_eq_pub (l := 1) _ _ _ _ _ _ rfl
      (by rw [h0]; exact newLevelFor_one _ _ (by omega) (by omega))]
  · rw [processTimeoutDetection_eq_pub (l := 2) _ _ _ _ _ _ rfl
      (by rw [h0]; exact newLevelFor_two _ _ (by omega) (by omega))]
  · rw [processTimeoutDetection_eq_pub (l := 2) _ _ _ _ _ _ rfl
      (by rw [h0]; exact newLevelFor_two _ _ (by omega) (by omega))]
  · rw [processTimeoutDetection_eq_pub (l := 3) _ _ _ _ _ _ rfl
      (by rw [h0]; exact newLevelFor_three _ _ _ (by omega) (by omega))]

/-- Witness for C1 at the default base interval N = 30000 ms. -/
theorem detector_strict_boundaries_witness :
    (processTimeoutDetection 30000 (0 + 30000) (fun _ => true) "c" 0 ⟨[("c", 0)], []⟩).2 = [] ∧
    (processTimeoutDetection 30000 (0 + 30000 + 1) (fun _ => true) "c" 0 ⟨[("c", 0)], []⟩).2 =
      [⟨"c", 1, 0, 0 + 30000 + 1, 1⟩] ∧
    (processTimeoutDetection 30000 (0 + 2 * 30000) (fun _ => true) "c" 0 ⟨[("c", 0)], []⟩).2 =
      [⟨"c", 1, 0, 0 + 2 * 30000, 1⟩] ∧
    (processTimeoutDetection 30000 (0 + 2 * 30000 + 1) (fun _ => true) "c" 0 ⟨[("c", 0)], []⟩).2 =
      [⟨"c", 2, 0, 0 + 2 * 30000 + 1, 1⟩] ∧
    (processTimeoutDetection 30000 (0 + 3 * 30000) (fun _ => true) "c" 0 ⟨[("c", 0)], []⟩).2 =
      [⟨"c", 2, 0, 0 + 3 * 30000, 1⟩] ∧
    (processTimeoutDetection 30000 (0 + 3 * 30000 + 1) (fun _ => true) "c" 0 ⟨[("c", 0)], []⟩).2 =
      [⟨"c", 3, 0, 0 + 3 * 30000 + 1, 1⟩] :=
  detector_strict_boundaries 30000 (by decide) "c" 0 ⟨[("c", 0)], []⟩ (by decide)

lemma newLevelFor_sound (waitTime n cur l : Int)
    (h : newLevelFor waitTime n cur = some l) :
    (l = 1 ∨ l = 2 ∨ l = 3) ∧ waitTime > l * n := by
  unfold newLevelFor at h
  split_ifs at h with h1 h2 h3
  · injection h with h'
    subst h'
    exact ⟨by omega, by omega⟩
  · injection h with h'
    subst h'
    exact ⟨by omega, by omega⟩
  · injection h with h'
    subst h'
    exact ⟨by omega, by omega⟩

lemma processTimeoutDetection_events_sound (n now : Int) (pubOk : String → Bool)
    (conv : String) (startTime : Int) (st : Store) :
    ∀ ev ∈ (processTimeoutDetection n now pubOk conv startTime st).2,
      (ev.level = 1 ∨ ev.level = 2 ∨ ev.level = 3) ∧
      ev.detectedAt = now ∧ now - ev.agentMessageTime > ev.level * n := by
  intro ev hev
  unfold processTimeoutDetection at hev
  split at hev
  · simp at hev
  · rename_i l hl
    split at hev
    · simp only [List.mem_singleton] at hev
      subst hev
      have hs := newLevelFor_sound _ _ _ _ hl
      exact ⟨hs.1, rfl, hs.2⟩
    · simp at hev

/-- Claim C2: every event a detector pass appends to the timeout event
stream carries a level in \x7b1,2,3\x7d, its detected-at stamp is the pass's
now, and at publish time the wait now − basis_ts strictly exceeds
level · N. -/
theorem detector_events_invariant (n now : Int) (pubOk : String → Bool)
    (convs : List (String × Int)) (st : Store) :
    ∀ ev ∈ (detectAndPublishTimeouts n now pubOk convs st).2,
      (ev.level = 1 ∨ ev.level = 2 ∨ ev.level = 3) ∧
      ev.detectedAt = now ∧ now - ev.agentMessageTime > ev.level * n := by
  induction convs generalizing st with
  | nil =>
    intro ev hev
    simp [detectAndPublishTimeouts] at hev
  | cons hd tl ih =>
    obtain ⟨c, s⟩ := hd
    intro ev hev
    simp only [detectAndPublishTimeouts, List.mem_append] at hev
    rcases hev with h | h
    · exact processTimeoutDetection_events_sound n now pubOk c s st ev h
    · exact ih _ ev h

/-- Witness for C2: a pass with N = 1000 over one conversation tracked at
0 and scanned at 1001 appends the level-1 event, which satisfies the
invariant. -/
theorem detector_events_invariant_witness :
    (((⟨"c", 1, 0, 1001, 1⟩ : TimeoutEvent).level = 1 ∨
      (⟨"c", 1, 0, 1001, 1⟩ : TimeoutEvent).level = 2 ∨
      (⟨"c", 1, 0, 1001, 1⟩ : TimeoutEvent).level = 3) ∧
     (⟨"c", 1, 0, 1001, 1⟩ : TimeoutEvent).detectedAt = 1001 ∧
     (1001 : Int) - (⟨"c", 1, 0, 1001, 1⟩ : TimeoutEvent).agentMessageTime >
       (⟨"c", 1, 0, 1001, 1⟩ : TimeoutEvent).level * 1000) :=
  detector_events_invariant 1000 1001 (fun _ => true) [("c", 0)] ⟨[("c", 0)], []⟩
    ⟨"c", 1, 0, 1001, 1⟩ (by decide)

lemma find?_filter_of_ne {α : Type} (c conv : String) (hne : c ≠ conv)
    (l : List (String × α)) :
    (l.filter (fun p => p.1 != conv)).find? (fun p => p.1 == c) =
      l.find? (fun p => p.1 == c) := by
  induction l with
  | nil => rfl
  | cons hd tl ih =>
    by_cases hk : hd.1 = conv
    · rw [List.filter_cons_of_neg (by simp [hk]),
        List.find?_cons_of_neg _ (by simp [hk]; exact Ne.symm hne)]
      exact ih
    · rw [List.filter_cons_of_pos (by simp [hk])]
      by_cases hc : hd.1 = c
      · rw [List.find?_cons_of_pos _ (by simp [hc]), List.find?_cons_of_pos _ (by simp [hc])]
      · rw [List.find?_cons_of_neg _ (by simp [hc]), List.find?_cons_of_neg _ (by simp [hc])]
        exact ih

lemma hget_hset_ne (c conv v : String) (h : List (String × String)) (hne : c ≠ conv) :
    hget c (hset conv v h) = hget c h := by
  unfold hget hset
  rw [List.find?_cons_of_neg _ (by simp; exact Ne.symm hne), find?_filter_of_ne c conv hne]

lemma processTimeoutDetection_notif_other (n now : Int) (pubOk : String → Bool)
    (conv c : String) (startTime : Int) (st : Store) (hne : c ≠ conv) :
    hget c (processTimeoutDetection n now pubOk conv startTime st).1.notif =
      hget c st.notif := by
  unfold processTimeoutDetection
  split
  · rfl
  · split
    · exact hget_hset_ne c conv _ st.notif hne
    · rfl

lemma processTimeoutDetection_events_conv (n now : Int) (pubOk : String → Bool)
    (conv : String) (startTime : Int) (st : Store) :
    ∀ ev ∈ (processTimeoutDetection n now pubOk conv startTime st).2,
      ev.conversationID = conv := by
  intro ev hev
  unfold processTimeoutDetection at hev
  split at hev
  · simp at hev
  · split at hev
    · simp only [List.mem_singleton] at hev
      subst hev
      rfl
    · simp at hev

lemma detectAndPublishTimeouts_not_mem (n now : Int) (pubOk : String → Bool)
    (c : String) (convs : List (String × Int)) (st : Store)
    (h : ∀ p ∈ convs, p.1 ≠ c) :
    (detectAndPublishTimeouts n now pubOk convs st).2.filter
        (fun ev => ev.conversationID == c) = [] ∧
    hget c (detectAndPublishTimeouts n now pubOk convs st).1.notif = hget c st.notif := by
  induction convs generalizing st with
  | nil => exact ⟨rfl, rfl⟩
  | cons hd tl ih =>
    obtain ⟨k, sc⟩ := hd
    have hk : k ≠ c := h (k, sc) (List.mem_cons_self _ _)
    have htl : ∀ p ∈ tl, p.1 ≠ c := fun p hp => h p (List.mem_cons_of_mem _ hp)
    simp only [detectAndPublishTimeouts, List.filter_append]
    constructor
    · rw [List.filter_eq_nil_iff.mpr, List.nil_append]
      · exact (ih _ htl).1
      · intro ev hev
        have := processTimeoutDetection_events_conv n now pubOk k sc st ev hev
        simp [this, hk]
    · rw [(ih _ htl).2]
      exact processTimeoutDetection_notif_other n now pubOk k c sc st (Ne.symm hk)

/-- Claim C3: a conversation whose stored level is 0 and whose wait exceeds
3N gets exactly one event from a detector pass, and its level is 3 — the
ladder is level-max, levels 1 and 2 are skipped. -/
theorem detector_level_max (n now startTime : Int) (c : String)
    (pre post : List (String × Int)) (st : Store) (pubOk : String → Bool)
    (hpre : ∀ p ∈ pre, p.1 ≠ c) (hpost : ∀ p ∈ post, p.1 ≠ c)
    (hcur : currentLevelOf (hget c st.notif) = 0)
    (hw : now - startTime > 3 * n) (hpub : pubOk c = true) :
    (detectAndPublishTimeouts n now pubOk (pre ++ (c, startTime) :: post) st).2.filter
      (fun ev => ev.conversationID == c) = [⟨c, 3, startTime, now, 1⟩] := by
  induction pre generalizing st with
  | nil =>
    rw [List.nil_append]
    simp only [detectAndPublishTimeouts, List.filter_append]
    rw [processTimeoutDetection_eq_pub n now pubOk c startTime st 3 hpub
      (by rw [hcur]; exact newLevelFor_three _ _ _ hw (by omega))]
    rw [(detectAndPublishTimeouts_not_mem n now pubOk c post _ hpost).1]
    simp
  | cons hd tl ih =>
    obtain ⟨k, sc⟩ := hd
    have hk : k ≠ c := hpre (k, sc) (List.mem_cons_self _ _)
    have htl : ∀ p ∈ tl, p.1 ≠ c := fun p hp => hpre p (List.mem_cons_of_mem _ hp)
    rw [List.cons_append]
    simp only [detectAndPublishTimeouts, List.filter_append]
    rw [List.filter_eq_nil_iff.mpr, List.nil_append]
    · exact ih _ htl
        (by rw [processTimeoutDetection_notif_other n now pubOk k c sc st (Ne.symm hk)]
            exact hcur)
    · intro ev hev
      have := processTimeoutDetection_events_conv n now pubOk k sc st ev hev
      simp [this, hk]

/-- Witness for C3: N = 10 ms, conversation "c" tracked at 0 and scanned
at now = 1000 alongside two other conversations; the pass publishes the
single event ("c", level 3). -/
theorem detector_level_max_witness :
    (detectAndPublishTimeouts 10 1000 (fun _ => true)
        ([("a", 995)] ++ ("c", 0) :: [("b", 999)]) ⟨[("c", 0)], []⟩).2.filter
      (fun ev => ev.conversationID == "c") = [⟨"c", 3, 0, 1000, 1⟩] :=
  detector_level_max 10 1000 0 "c" [("a", 995)] [("b", 999)] ⟨[("c", 0)], []⟩
    (fun _ => true) (by decide) (by decide) (by decide) (by decide) rfl

/-- Counterexample to C4 as stated: when the set-if-absent fails while the
key already holds this replica's own pod id, the tick keeps leadership but
does NOT renew the lease, contradicting "remains leader and renews the
lease". -/
theorem tryBecomeLeader_no_renew_on_failure :
    (ElectState.mk (some "p") true 0).leaderKey = some "p" ∧
    (tryBecomeLeader "p" ⟨some "p", true, 0⟩).state.isLeader = true ∧
    (tryBecomeLeader "p" ⟨some "p", true, 0⟩).renewCalled = false := by
  decide

/-- Claim C4 (amended): each tick attempts set-if-absent of the leader key
with TTL; on success it increments the leader-change counter exactly when
it was not previously leader and then renews; on failure with the key
holding its own pod id it remains leader but performs no renewal; on
failure with the key holding another pod id it ends up follower (it
consults the key only when its local hint said leader). -/
theorem tryBecomeLeader_tick (pod : String) (s : ElectState) :
    (s.leaderKey = none →
      tryBecomeLeader pod s =
        ⟨⟨some pod, true,
          if s.isLeader then s.leaderChanges else s.leaderChanges + 1⟩, true⟩) ∧
    (s.leaderKey = some pod → tryBecomeLeader pod s = ⟨s, false⟩) ∧
    (∀ q, s.leaderKey = some q → q ≠ pod →
      tryBecomeLeader pod s = ⟨{ s with isLeader := false }, false⟩) := by
  obtain ⟨k, lead, ch⟩ := s
  refine ⟨?_, ?_, ?_⟩
  · intro hk
    subst hk
    unfold tryBecomeLeader renewLeadership
    cases lead <;> simp
  · intro hk
    subst hk
    unfold tryBecomeLeader
    cases lead <;> simp
  · intro q hk hq
    subst hk
    unfold tryBecomeLeader
    cases lead <;> simp [hq]

/-- Witness for C4: a fresh replica with no leader key wins the election,
bumps the change counter, and renews. -/
theorem tryBecomeLeader_tick_witness :
    tryBecomeLeader "p" ⟨none, false, 0⟩ = ⟨⟨some "p", true, 1⟩, true⟩ := by
  have h := (tryBecomeLeader_tick "p" ⟨none, false, 0⟩).1 rfl
  simpa using h

/-- Claim C5: after TrackAgentMessage the waiting index maps the
conversation to the given timestamp (replacing any prior entry), its
notification-state entry is gone, and the detector therefore reads level 0
for it again. -/
theorem trackAgentMessage_resets (conv : String) (ts : Int) (st : Store) :
    zscore conv (trackAgentMessage conv ts st).waiting = some ts ∧
    hget conv (trackAgentMessage conv ts st).notif = none ∧
    currentLevelOf (hget conv (trackAgentMessage conv ts st).notif) = 0 := by
  have hw : zscore conv (zadd conv ts st.waiting) = some ts := by
    unfold zscore zadd
    rw [List.find?_cons_of_pos _ (by simp)]
    rfl
  have hn : hget conv (hdel conv st.notif) = none := by
    unfold hget hdel
    rw [find?_filter_ne]
    rfl
  exact ⟨hw, hn, by rw [show (trackAgentMessage conv ts st).notif = hdel conv st.notif from rfl, hn]; rfl⟩

/-- Claim C6: after ClearTimeout the conversation is in neither the
waiting index nor the notification-state map, and clearing an untracked
conversation is a no-op that succeeds. -/
theorem clearTimeout_spec (conv : String) (st : Store) :
    (zscore conv (clearTimeout conv st).waiting = none ∧
     hget conv (clearTimeout conv st).notif = none) ∧
    (zscore conv st.waiting = none → hget conv st.notif = none →
      clearTimeout conv st = st) := by
  constructor
  · constructor
    · unfold clearTimeout zscore zrem
      rw [find?_filter_ne]
      rfl
    · unfold clearTimeout hget hdel
      rw [find?_filter_ne]
      rfl
  · intro hw hn
    have hw' : st.waiting.find? (fun p => p.1 == conv) = none := by
      unfold zscore at hw
      exact Option.map_eq_none.mp hw
    have hn' : st.notif.find? (fun p => p.1 == conv) = none := by
      unfold hget at hn
      exact Option.map_eq_none.mp hn
    unfold clearTimeout zrem hdel
    obtain ⟨w, nf⟩ := st
    simp only [Store.mk.injEq]
    exact ⟨filter_ne_of_find?_none conv w hw', filter_ne_of_find?_none conv nf hn'⟩

/-- Witness for C6: clearing the untracked conversation "b" leaves the
store unchanged. -/
theorem clearTimeout_spec_witness :
    clearTimeout "b" ⟨[("a", 5)], [("a", "1")]⟩ = ⟨[("a", 5)], [("a", "1")]⟩ :=
  (clearTimeout_spec "b" ⟨[("a", 5)], [("a", "1")]⟩).2 (by decide) (by decide)

/-- Claim C7: a newly due level is published to the stream before the
notification state is written, and the state is written exactly when the
append succeeds; a publish failure for one conversation leaves its state
unchanged and the pass continues with the remaining conversations. -/
theorem detector_publish_before_state (n now startTime l : Int) (c : String)
    (rest : List (String × Int)) (st : Store) (pubOk : String → Bool)
    (hl : newLevelFor (now - startTime) n (currentLevelOf (hget c st.notif)) = some l) :
    (pubOk c = true →
      processTimeoutDetection n now pubOk c startTime st =
        ({ st with notif := hset c (toString l) st.notif },
         [⟨c, l, startTime, now, 1⟩])) ∧
    (pubOk c = false →
      processTimeoutDetection n now pubOk c startTime st = (st, []) ∧
      detectAndPublishTimeouts n now pubOk ((c, startTime) :: rest) st =
        detectAndPublishTimeouts n now pubOk rest st) := by
  constructor
  · intro hp
    exact processTimeoutDetection_eq_pub n now pubOk c startTime st l hp hl
  · intro hp
    have h1 := processTimeoutDetection_eq_nopub n now pubOk c startTime st l hp hl
    refine ⟨h1, ?_⟩
    simp only [detectAndPublishTimeouts]
    rw [h1]
    simp

/-- Witness for C7: N = 10 ms, wait 11 ms due at level 1, publish fails
for every conversation; the state stays untouched and the pass equals the
pass over the remaining conversations. -/
theorem detector_publish_before_state_witness :
    processTimeoutDetection 10 11 (fun _ => false) "c" 0 ⟨[], []⟩ = (⟨[], []⟩, []) ∧
    detectAndPublishTimeouts 10 11 (fun _ => false) (("c", 0) :: [("d", 0)]) ⟨[], []⟩ =
      detectAndPublishTimeouts 10 11 (fun _ => false) [("d", 0)] ⟨[], []⟩ :=
  (detector_publish_before_state 10 11 0 1 "c" [("d", 0)] ⟨[], []⟩ (fun _ => false)
    (by decide)).2 rfl

/-- Claim C8: the consumer acks a stream entry exactly when parsing fails
(poison pill, parse-error counter incremented) or parsing succeeds and the
notification sink succeeds; on a sink error the entry is not acked and
stays pending. -/
theorem processMessage_ack_policy (sink : TimeoutEvent → Bool) (m : XMessage) :
    ((processMessage sink m).acked = true ↔
      ((∃ e, parseTimeoutEvent m = Except.error e) ∨
       (∃ ev, parseTimeoutEvent m = Except.ok ev ∧ sink ev = true))) ∧
    ((processMessage sink m).parseErrorInc = true ↔
      (∃ e, parseTimeoutEvent m = Except.error e)) ∧
    (∀ ev, parseTimeoutEvent m = Except.ok ev → sink ev = false →
      (processMessage sink m).acked = false) := by
  cases hp : parseTimeoutEvent m with
  | error e =>
    have hout : processMessage sink m = ⟨true, true, false⟩ := by
      unfold processMessage
      rw [hp]
    rw [hout]
    refine ⟨iff_of_true rfl (Or.inl ⟨e, rfl⟩), iff_of_true rfl ⟨e, rfl⟩, ?_⟩
    intro ev h1 h2
    exact Except.noConfusion h1
  | ok ev =>
    cases hsv : sink ev with
    | false =>
      have hout : processMessage sink m = ⟨false, false, false⟩ := by
        unfold processMessage
        rw [hp]
        simp [hsv]
      rw [hout]
      refine ⟨?_, ?_, ?_⟩
      · apply iff_of_false (by simp)
        rintro (⟨e, he⟩ | ⟨ev', he', hs⟩)
        · exact Except.noConfusion he
        · injection he' with h
          cases h
          rw [hsv] at hs
          exact Bool.noConfusion hs
      · apply iff_of_false (by simp)
        rintro ⟨e, he⟩
        exact Except.noConfusion he
      · intro ev' h1 h2
        rfl
    | true =>
      have hout : processMessage sink m = ⟨true, false, true⟩ := by
        unfold processMessage
        rw [hp]
        simp [hsv]
      rw [hout]
      refine ⟨iff_of_true rfl (Or.inr ⟨ev, rfl, hsv⟩), ?_, ?_⟩
      · apply iff_of_false (by simp)
        rintro ⟨e, he⟩
        exact Except.noConfusion he
      · intro ev' h1 h2
        injection h1 with h
        cases h
        rw [hsv] at h2
        exact Bool.noConfusion h2

/-- Witness for C8: a well-formed entry whose sink call fails is not
acknowledged. -/
theorem processMessage_ack_policy_witness :
    (processMessage (fun _ => false)
      ⟨"1-1", [("conversation_id", GoVal.str "c"), ("level", GoVal.str "2"),
               ("agent_message_time", GoVal.str "100"),
               ("detected_at", GoVal.str "200"),
               ("attempt", GoVal.str "1")]⟩).acked = false :=
  (processMessage_ack_policy (fun _ => false)
      ⟨"1-1", [("conversation_id", GoVal.str "c"), ("level", GoVal.str "2"),
               ("agent_message_time", GoVal.str "100"),
               ("detected_at", GoVal.str "200"),
               ("attempt", GoVal.str "1")]⟩).2.2
    ⟨"c", 2, 100, 200, 1⟩ (by rfl) rfl

lemma length_filter_add_length_filter_not {α : Type} (l : List α) (p : α → Bool) :
    (l.filter p).length + (l.filter (fun a => !(p a))).length = l.length := by
  induction l with
  | nil => rfl
  | cons hd tl ih =>
    cases h : p hd <;> simp [List.filter_cons, h] <;> omega

/-- Counterexample to C9 as stated: a waiting entry whose score equals the
cutoff now − max_age is removed by the cleanup although its score is not
strictly below the cutoff. -/
theorem cleanup_inclusive_boundary :
    ¬ ((100 : Int) < 100) ∧
    (cleanupExpiredConversations 100 ⟨[("c", 100)], []⟩).1.waiting = [] ∧
    (cleanupExpiredConversations 100 ⟨[("c", 100)], []⟩).2 = 1 := by
  decide

/-- Claim C9 (amended): the cleanup removes exactly the waiting entries
whose score lies in [0, now − max_age] — the cutoff itself included —
computes the removed count internally (the Go function logs it and returns
only an error status, not the count), and leaves all notification-state
entries untouched. -/
theorem cleanupExpiredConversations_spec (cutoff : Int) (st : Store) :
    (∀ p : String × Int,
      p ∈ (cleanupExpiredConversations cutoff st).1.waiting ↔
        (p ∈ st.waiting ∧ ¬(0 ≤ p.2 ∧ p.2 ≤ cutoff))) ∧
    (cleanupExpiredConversations cutoff st).2 +
      (cleanupExpiredConversations cutoff st).1.waiting.length = st.waiting.length ∧
    (cleanupExpiredConversations cutoff st).1.notif = st.notif := by
  refine ⟨?_, ?_, rfl⟩
  · intro p
    unfold cleanupExpiredConversations
    simp only [List.mem_filter, Bool.not_eq_true', decide_eq_false_iff_not]
  · have key := length_filter_add_length_filter_not st.waiting
      (fun p => decide (0 ≤ p.2 ∧ p.2 ≤ cutoff))
    show ((st.waiting.filter (fun p => decide (0 ≤ p.2 ∧ p.2 ≤ cutoff))).length : Int) +
        ((st.waiting.filter (fun p => !(decide (0 ≤ p.2 ∧ p.2 ≤ cutoff)))).length : Int) =
      (st.waiting.length : Int)
    omega

lemma hget_hdel_self (c : String) (h : List (String × String)) :
    hget c (hdel c h) = none := by
  unfold hget hdel
  rw [find?_filter_ne]
  rfl

/-- Claim C10: a notification-state value that does not parse as an
integer does not make the per-conversation pass fail or skip: the current
level is silently 0, the pass behaves as if no state were stored, and it
may publish the lowest due level again. -/
theorem detector_garbage_level (n now startTime : Int) (c : String) (st : Store)
    (pubOk : String → Bool) (s : String)
    (hs : hget c st.notif = some s) (hbad : goAtoi s = none) :
    currentLevelOf (hget c st.notif) = 0 ∧
    (processTimeoutDetection n now pubOk c startTime st).2 =
      (processTimeoutDetection n now pubOk c startTime
        { st with notif := hdel c st.notif }).2 ∧
    (n < now - startTime → now - startTime ≤ 2 * n → pubOk c = true →
      (processTimeoutDetection n now pubOk c startTime st).2 =
        [⟨c, 1, startTime, now, 1⟩]) := by
  have h0 : currentLevelOf (hget c st.notif) = 0 := by
    rw [hs]
    unfold currentLevelOf
    by_cases he : s = ""
    · simp [he]
    · simp [he, hbad]
  have h0' : currentLevelOf
      (hget c (Store.mk st.waiting (hdel c st.notif)).notif) = 0 := by
    rw [show (Store.mk st.waiting (hdel c st.notif)).notif = hdel c st.notif from rfl,
      hget_hdel_self]
    rfl
  refine ⟨h0, ?_, ?_⟩
  · cases hnl : newLevelFor (now - startTime) n 0 with
    | none =>
      rw [processTimeoutDetection_eq_of_none _ _ _ _ _ _ (by rw [h0]; exact hnl),
        processTimeoutDetection_eq_of_none _ _ _ _ _ _ (by rw [h0']; exact hnl)]
    | some l =>
      cases hpv : pubOk c with
      | true =>
        rw [processTimeoutDetection_eq_pub _ _ _ _ _ _ l hpv (by rw [h0]; exact hnl),
          processTimeoutDetection_eq_pub _ _ _ _ _ _ l hpv (by rw [h0']; exact hnl)]
      | false =>
        rw [processTimeoutDetection_eq_nopub _ _ _ _ _ _ l hpv (by rw [h0]; exact hnl),
          processTimeoutDetection_eq_nopub _ _ _ _ _ _ l hpv (by rw [h0']; exact hnl)]
  · intro h1 h2 hpv
    rw [processTimeoutDetection_eq_pub _ _ _ _ _ _ 1 hpv
      (by rw [h0]; exact newLevelFor_one _ _ h1 h2)]

/-- Witness for C10: with the unparseable stored value "garbage", N = 10
and wait 15, the pass publishes the level-1 event again. -/
theorem detector_garbage_level_witness :
    (processTimeoutDetection 10 15 (fun _ => true) "c" 0
      ⟨[("c", 0)], [("c", "garbage")]⟩).2 = [⟨"c", 1, 0, 15, 1⟩] :=
  (detector_garbage_level 10 15 0 "c" ⟨[("c", 0)], [("c", "garbage")]⟩
    (fun _ => true) "garbage" (by decide) (by decide)).2.2 (by decide) (by decide) rfl
